import Mathlib

/-!
Verification of the Game-of-Life board engine (`src/logic/Board.py`).

The board is a numpy boolean array of physical shape `(height+2, width+2)`
(a 1-cell border around the logical grid).  We embed it as a `Grid`:
explicit physical dimensions plus a total cell function; cells outside the
physical range are irrelevant (all statements are restricted to the
physical buffer, exactly as numpy array comparisons are).
-/

structure Grid where
  H : Nat
  W : Nat
  cell : Nat → Nat → Bool

/-- Build a grid from a row list (row-major, missing entries read as dead). -/
def Grid.ofLists (l : List (List Bool)) : Grid :=
  ⟨l.length, (l.headD []).length, fun i j => ((l.getD i []).getD j false)⟩

/-- Numeric value of a cell, as numpy bool arithmetic does (`True = 1`). -/
def b2i (b : Bool) : Int := if b then 1 else 0

/-- Normalized start index of a Python slice `a:` over an axis of length
`len`: negative values count from the end (clamped at 0), nonnegative ones
are clamped at `len`. -/
def sLo (a : Int) (len : Nat) : Nat :=
  if a < 0 then (a + len).toNat else min a.toNat len

/-- Normalized stop index of a Python slice `:b` (same normalization). -/
def sHi (b : Int) (len : Nat) : Nat :=
  if b < 0 then (b + len).toNat else min b.toNat len

/-- Embeds `Board.countAlive(i, j)`: the sum of the slice
`self[i-1:i+2, j-1:j+2]` minus the cell itself.  At `i = 0` (resp. `j = 0`)
the row (resp. column) slice `-1:2` is empty on any axis of length ≥ 3,
and at the high edge the slice is clamped — both faithfully reproduced by
`sLo`/`sHi`. -/
def countAlive (g : Grid) (i j : Nat) : Int :=
  (∑ r ∈ Finset.Ico (sLo ((i : Int) - 1) g.H) (sHi ((i : Int) + 2) g.H),
    ∑ c ∈ Finset.Ico (sLo ((j : Int) - 1) g.W) (sHi ((j : Int) + 2) g.W),
      b2i (g.cell r c)) - b2i (g.cell i j)

/-- Embeds `Board.updateCPU`: writes `new_board[i, j]` for EVERY index of the
physical shape (`np.ndindex(self.shape)` covers the border as well), using
`alive_count in [2, 3] if self[i, j] else alive_count == 3`. -/
def updateCPU (g : Grid) : Grid :=
  ⟨g.H, g.W, fun i j =>
    if g.cell i j then (countAlive g i j == 2 || countAlive g i j == 3)
    else countAlive g i j == 3⟩

/-- The 3×3-window neighbour count of the GPU kernel: it adds
`board[x+i, y+j]` for `i, j ∈ {-1, 0, 1}` and subtracts `board[x, y]`.
(Only ever used with `x, y ≥ 1`, where `x - 1 + a` matches `x + i`.) -/
def mooreCount (g : Grid) (x y : Nat) : Int :=
  (∑ a ∈ Finset.range 3, ∑ b ∈ Finset.range 3,
    b2i (g.cell (x - 1 + a) (y - 1 + b))) - b2i (g.cell x y)

/-- Embeds the `Board.updateGpu` kernel combined with `runOnGpu`'s full launch grid:
every position of the physical shape gets a thread; only threads with
`0 < x < shape[0] - 1` and `0 < y < shape[1] - 1` (the kernel's `width`
and `height` parameters receive `self.shape`, i.e. rows then columns)
write a next state, all other cells of the destination buffer keep the
value `new_board` already had. -/
def updateGpuKernel (g nb : Grid) : Grid :=
  ⟨g.H, g.W, fun x y =>
    if 0 < x ∧ x < g.H - 1 ∧ 0 < y ∧ y < g.W - 1 then
      (if g.cell x y then (mooreCount g x y == 2 || mooreCount g x y == 3)
       else mooreCount g x y == 3)
    else nb.cell x y⟩

/-- Embeds `Board.getAliveCount`: `self.sum()` over the whole physical buffer. -/
def aliveCount (g : Grid) : Int :=
  ∑ i ∈ Finset.range g.H, ∑ j ∈ Finset.range g.W, b2i (g.cell i j)

/-- Embeds `(g1 & ~g2).sum()`: the number of cells alive in `g1` and dead in
`g2` over the physical buffer (used for the births/deaths counters). -/
def countDiff (g1 g2 : Grid) : Int :=
  ∑ i ∈ Finset.range g1.H, ∑ j ∈ Finset.range g1.W,
    b2i (g1.cell i j && !(g2.cell i j))

/-- Bitwise identical contents over the whole physical buffer (numpy
array equality of same-shaped boards). -/
def gridEqv (g1 g2 : Grid) : Prop :=
  g1.H = g2.H ∧ g1.W = g2.W ∧
    ∀ i < g1.H, ∀ j < g1.W, g1.cell i j = g2.cell i j

instance (g1 g2 : Grid) : Decidable (gridEqv g1 g2) := by
  unfold gridEqv
  infer_instance

/-- A grid whose 1-cell physical border is entirely dead. -/
def borderDead (g : Grid) : Prop :=
  ∀ i < g.H, ∀ j < g.W,
    (i = 0 ∨ i = g.H - 1 ∨ j = 0 ∨ j = g.W - 1) → g.cell i j = false

instance (g : Grid) : Decidable (borderDead g) := by
  unfold borderDead
  infer_instance

/-- The all-dead grid of a given physical shape (`np.zeros`). -/
def zeros (h w : Nat) : Grid := ⟨h, w, fun _ _ => false⟩

/-!
`Board.__new__(cls, _, random, height, width)`: pads the requested logical
dimensions by 2 and allocates either `np.zeros((height, width))` or a
uniform random draw over the FULL physical buffer.  numpy raises
`ValueError` on a negative dimension (modelled as `none`); any dimension
≥ 0 — including the degenerate ones arising from logical sizes ≤ 0 — is
accepted without any validation.  The outcome of `np.random.choice` is
passed in as the `draw` oracle.
-/
def boardNew (random : Bool) (height width : Int)
    (draw : Nat → Nat → Bool) : Option Grid :=
  let hP : Int := height + 2
  let wP : Int := width + 2
  if hP < 0 ∨ wP < 0 then none
  else some ⟨hP.toNat, wP.toNat, if random then draw else fun _ _ => false⟩

/-!
`Board.paste(self, other, y, x)` performs the slice assignment
`self[x+1 : x+other.shape[0]-1, y+1 : y+other.shape[1]-1] = other[1:-1, 1:-1]`
with no bounds check of its own.  numpy semantics: both slices are
normalized (negative starts count from the end, stops clamp), and the
assignment succeeds iff each source axis length equals the destination
axis length or is 1 (broadcast); otherwise a `ValueError` is raised before
anything is written (modelled as `none`).
-/
def pasteGrid (tgt other : Grid) (y x : Int) : Option Grid :=
  let rLo := sLo (x + 1) tgt.H
  let rHi := sHi (x + (other.H : Int) - 1) tgt.H
  let cLo := sLo (y + 1) tgt.W
  let cHi := sHi (y + (other.W : Int) - 1) tgt.W
  let sRLo := sLo 1 other.H
  let sRHi := sHi (-1) other.H
  let sCLo := sLo 1 other.W
  let sCHi := sHi (-1) other.W
  let dR := rHi - rLo
  let dC := cHi - cLo
  let sR := sRHi - sRLo
  let sC := sCHi - sCLo
  if (sR = dR ∨ sR = 1) ∧ (sC = dC ∨ sC = 1) then
    some ⟨tgt.H, tgt.W, fun i j =>
      if rLo ≤ i ∧ i < rHi ∧ cLo ≤ j ∧ j < cHi then
        other.cell (sRLo + (if sR = 1 then 0 else i - rLo))
                   (sCLo + (if sC = 1 then 0 else j - cLo))
      else tgt.cell i j⟩
  else none

/-!
The five `DataTracker`s of a board.  A tracker's `update(val)` first sets
`self.value = val` and then, when a dataset sink is attached, calls
`dataset.push(value)` — arbitrary downstream code that may raise.  The
`raiseOn` oracle below says which attached sinks raise when pushed to.
-/

/-- Embeds `Board.background_color`: either a single grayscale luminance value
or an RGB triple. -/
inductive BgColor
  | gray (v : Nat)
  | rgb (r g b : Nat)

/-- A materialized image: `(H-2)×(W-2)` pixels (the border is cropped
away), an RGB value per pixel and, in transparent mode, an alpha plane. -/
structure Img where
  h : Nat
  w : Nat
  rgb : Nat → Nat → Nat × Nat × Nat
  alpha : Option (Nat → Nat → Nat)

/-- The CPU branch of `Board.getImage`: grayscale 0/255 per cell, the
nonzero-gray background substituted for dead cells in opaque mode, the
border cropped away, then either PIL colorization against an RGB
background (linear 0→bg, 255→white ramp) or plain L→RGB conversion, and
the grayscale plane reused as the alpha channel in transparent mode. -/
def renderCPU (g : Grid) (bg : BgColor) (transparent : Bool) : Img :=
  let gray0 : Nat → Nat → Nat := fun i j => if g.cell i j then 255 else 0
  let gray : Nat → Nat → Nat := fun i j =>
    match bg with
    | .gray v => if transparent = false ∧ v ≠ 0 ∧ gray0 i j = 0 then v else gray0 i j
    | .rgb _ _ _ => gray0 i j
  let lum : Nat → Nat → Nat := fun i j => gray (i + 1) (j + 1)
  let rgbF : Nat → Nat → Nat × Nat × Nat :=
    match transparent, bg with
    | false, .rgb r0 g0 b0 => fun i j =>
        (r0 + (255 - r0) * lum i j / 255,
         g0 + (255 - g0) * lum i j / 255,
         b0 + (255 - b0) * lum i j / 255)
    | _, _ => fun i j => (lum i j, lum i j, lum i j)
  { h := g.H - 2, w := g.W - 2, rgb := rgbF,
    alpha := if transparent then some lum else none }

/-- The GPU branch of `Board.getImage` (the `Board.image` kernel over a
`(H-2, W-2, 3 or 4)` device buffer): live cells render pure white, dead
cells render the background triple (a grayscale background replicated to
three channels), alpha 255/0 in transparent mode. -/
def renderGPU (g : Grid) (bg : BgColor) (transparent : Bool) : Img :=
  let bgT : Nat × Nat × Nat :=
    match bg with
    | .rgb r0 g0 b0 => (r0, g0, b0)
    | .gray v => (v, v, v)
  { h := g.H - 2, w := g.W - 2,
    rgb := fun i j => if g.cell (i + 1) (j + 1) then (255, 255, 255) else bgT,
    alpha := if transparent then
        some (fun i j => if g.cell (i + 1) (j + 1) then 255 else 0)
      else none }

inductive TrackerName
  | generation
  | time
  | alive
  | births
  | deaths
deriving DecidableEq

/-- The mutable state of one `Board` object: the two buffers, the backend
flag fixed at `__init__`, the image cache, the background colour, the five
tracker values and the tick lock.  Wall-clock durations are outside the
model, so the `time` tracker is carried but its pushed value is abstracted
to 0. -/
structure BoardState where
  board : Grid
  newBoard : Grid
  useGpu : Bool
  image : Option Img
  background : BgColor
  births : Int
  deaths : Int
  alive : Int
  time : Int
  generation : Int
  lockHeld : Bool

/-- Embeds `DataTracker.update`: set the value, then push it to the attached
sink, which may raise (the exception propagates with the value already
set and every earlier state change kept). -/
def pushT (raiseOn : TrackerName → Bool) (name : TrackerName)
    (set : BoardState → BoardState) (st : BoardState) :
    Except BoardState BoardState :=
  let st := set st
  if raiseOn name then .error st else .ok st

/-- The grid computation a tick performs: the GPU kernel when `use_gpu`
was fixed at construction, the CPU double loop otherwise. -/
def gridStep (st : BoardState) : Grid :=
  if st.useGpu then updateGpuKernel st.board st.newBoard else updateCPU st.board

/-- Embeds `Board.tick()`: acquires `tick_lock`, computes the next generation
into `new_board`, pushes the `births` and `deaths` set-difference counts,
copies `new_board` into the board, pushes `alive`, `time` and
`generation` (an `increase(1)`), clears the image cache (`refresh`) and
finally releases the lock.  There is no `try/finally`: an exception from
any tracker sink propagates immediately (the `.error` state), skipping
everything after it — including the `tick_lock.release()`. -/
def tick (raiseOn : TrackerName → Bool) (st0 : BoardState) :
    Except BoardState BoardState := do
  let old := st0.board
  let st := { st0 with lockHeld := true }
  let nb := gridStep st
  let st := { st with newBoard := nb }
  let st ← pushT raiseOn .births
    (fun s => { s with births := countDiff nb old }) st
  let st ← pushT raiseOn .deaths
    (fun s => { s with deaths := countDiff old nb }) st
  let st := { st with board := nb }
  let st ← pushT raiseOn .alive
    (fun s => { s with alive := aliveCount s.board }) st
  let st ← pushT raiseOn .time (fun s => { s with time := 0 }) st
  let st ← pushT raiseOn .generation
    (fun s => { s with generation := s.generation + 1 }) st
  let st := { st with image := none }
  pure { st with lockHeld := false }

/-- The state a raise-free `tick()` ends in. -/
def tickPure (st : BoardState) : BoardState :=
  match tick (fun _ => false) st with
  | .ok s => s
  | .error s => s

/-- Embeds `Board.getImage(is_transparent)`: returns the cached image when the
cache is non-empty — the transparency argument and the background colour
are only read on a cache miss, where the branch fixed at construction
renders and stores the image. -/
def getImage (st : BoardState) (transparent : Bool) : Img × BoardState :=
  match st.image with
  | some img => (img, st)
  | none =>
      let img :=
        if st.useGpu then renderGPU st.board st.background transparent
        else renderCPU st.board st.background transparent
      (img, { st with image := some img })

/-!
The `Preset` subsystem.
-/

/-- Embeds `np.where(src)` in row-major order: the coordinates of the live cells
of the physical buffer. -/
def aliveList (g : Grid) : List (Nat × Nat) :=
  ((List.range g.H).map (fun i =>
    (List.range g.W).filterMap (fun j =>
      if g.cell i j then some (i, j) else none))).flatten

/-- The crop branch of `Preset.__new__` for an in-memory source region:
when `crop` is set and the region has at least one live cell, slice
`src[max(min(x)-1, 0) : max(x)+2, max(min(y)-1, 0) : max(y)+2]`
(the numpy stop clamps at the axis length); otherwise the region is
returned unchanged. -/
def cropPreset (crop : Bool) (g : Grid) : Grid :=
  let coords := aliveList g
  if crop ∧ coords ≠ [] then
    let xs := coords.map Prod.fst
    let ys := coords.map Prod.snd
    let rLo := (xs.min?.getD 0) - 1
    let rHi := min ((xs.max?.getD 0) + 2) g.H
    let cLo := (ys.min?.getD 0) - 1
    let cHi := min ((ys.max?.getD 0) + 2) g.W
    ⟨rHi - rLo, cHi - cLo, fun i j => g.cell (rLo + i) (cLo + j)⟩
  else g

/-- Modelled from the spec (§4.5, §8): the region the crop of a
single-live-cell source is claimed to produce — the 3×3 sub-region
centred on the live cell, clamped to the source bounds. -/
def centered3x3 (g : Grid) (r c : Nat) : Grid :=
  ⟨min (r + 1) (g.H - 1) + 1 - (r - 1),
   min (c + 1) (g.W - 1) + 1 - (c - 1),
   fun i j => g.cell ((r - 1) + i) ((c - 1) + j)⟩

/-!
Persistence (`Preset.save` / `Preset.__new__` from a `Path`).
`np.savetxt(path, self, fmt='%d')` writes one line per row, the cells as
`0`/`1` tokens joined by single spaces; `np.loadtxt(src, dtype=bool)`
splits each line into whitespace-separated tokens, skips token-less
lines, converts each token to a bool and requires every row to have the
same length (raising otherwise, modelled as `none`).  Lines are modelled
as `List Char`.
-/

/-- Character of one `%d`-formatted cell. -/
def bitChar (b : Bool) : Char := if b then '1' else '0'

/-- One saved row: formatted cells joined by the default single-space
delimiter of `np.savetxt`. -/
def formatRow : List Bool → List Char
  | [] => []
  | [b] => [bitChar b]
  | b :: rest => bitChar b :: ' ' :: formatRow rest

/-- Whitespace tokenizer (Python `line.split()` as used by `np.loadtxt`):
maximal runs of non-space characters, empty tokens discarded. -/
def tokensAux (acc : List Char) : List Char → List (List Char)
  | [] => if acc = [] then [] else [acc.reverse]
  | c :: cs =>
      if c = ' ' then
        if acc = [] then tokensAux [] cs else acc.reverse :: tokensAux [] cs
      else tokensAux (c :: acc) cs

def tokens (cs : List Char) : List (List Char) := tokensAux [] cs

/-- Token conversion: a saved file only contains `0`/`1` tokens, and
`np.loadtxt(dtype=bool)` reads `1` as live. -/
def parseRow (cs : List Char) : List Bool :=
  (tokens cs).map (fun t => t == ['1'])

/-- Embeds the `Preset.save` body: the text lines `np.savetxt` produces for a
boolean matrix. -/
def saveGrid (g : List (List Bool)) : List (List Char) := g.map formatRow

/-- The rows `np.loadtxt` parses: every line with at least one token. -/
def parsedRows (ls : List (List Char)) : List (List Bool) :=
  (ls.filter (fun l => !(tokens l).isEmpty)).map parseRow

/-- Embeds `np.loadtxt(path, dtype=bool)` over the lines of a file: parse every
line that has at least one token, requiring a uniform row length
(a ragged file raises, modelled as `none`). -/
def loadGrid (ls : List (List Char)) : Option (List (List Bool)) :=
  if (parsedRows ls).all
      (fun r => r.length = ((parsedRows ls).headD []).length)
  then some (parsedRows ls)
  else none

/-!
Helper lemmas.
-/

/-- The record a raise-free `tick()` leaves behind, written out field by
field. -/
def tickResult (st : BoardState) : BoardState :=
  { st with
    board := gridStep st
    newBoard := gridStep st
    births := countDiff (gridStep st) st.board
    deaths := countDiff st.board (gridStep st)
    alive := aliveCount (gridStep st)
    time := 0
    generation := st.generation + 1
    image := none
    lockHeld := false }

theorem tick_noraise (st : BoardState) :
    tick (fun _ => false) st = Except.ok (tickResult st) := rfl

theorem tickPure_eq (st : BoardState) : tickPure st = tickResult st := rfl

theorem gridStep_H (st : BoardState) : (gridStep st).H = st.board.H := by
  unfold gridStep updateGpuKernel updateCPU
  cases st.useGpu <;> simp

theorem gridStep_W (st : BoardState) : (gridStep st).W = st.board.W := by
  unfold gridStep updateGpuKernel updateCPU
  cases st.useGpu <;> simp

/-- Pointwise accounting of one cell: its new numeric value is its old
one plus its contribution to births minus its contribution to deaths. -/
theorem b2i_accounting (a b : Bool) :
    b2i a = b2i b + b2i (a && !b) - b2i (b && !a) := by
  cases a <;> cases b <;> simp [b2i]

/-- The set-difference counters balance the change of the alive count for
any two same-shaped buffers. -/
theorem aliveCount_balance (old new : Grid)
    (hH : new.H = old.H) (hW : new.W = old.W) :
    aliveCount new = aliveCount old + countDiff new old - countDiff old new := by
  unfold aliveCount countDiff
  rw [hH, hW]
  have h : (∑ i ∈ Finset.range old.H, ∑ j ∈ Finset.range old.W, b2i (new.cell i j))
      = ∑ i ∈ Finset.range old.H, ∑ j ∈ Finset.range old.W,
          (b2i (old.cell i j) + b2i (new.cell i j && !(old.cell i j))
            - b2i (old.cell i j && !(new.cell i j))) := by
    refine Finset.sum_congr rfl fun i _ => Finset.sum_congr rfl fun j _ => ?_
    exact b2i_accounting _ _
  rw [h]
  simp [Finset.sum_add_distrib, Finset.sum_sub_distrib]

/-- On a strictly interior cell the slice-based neighbour count of the
CPU path coincides with the 3×3 loop count of the GPU kernel. -/
theorem countAlive_eq_moore (g : Grid) (i j : Nat)
    (hi0 : 0 < i) (hi1 : i + 1 < g.H) (hj0 : 0 < j) (hj1 : j + 1 < g.W) :
    countAlive g i j = mooreCount g i j := by
  unfold countAlive mooreCount
  have hrl : sLo ((i : Int) - 1) g.H = i - 1 := by
    unfold sLo
    rw [if_neg (by omega)]
    omega
  have hrh : sHi ((i : Int) + 2) g.H = i + 2 := by
    unfold sHi
    rw [if_neg (by omega)]
    omega
  have hcl : sLo ((j : Int) - 1) g.W = j - 1 := by
    unfold sLo
    rw [if_neg (by omega)]
    omega
  have hch : sHi ((j : Int) + 2) g.W = j + 2 := by
    unfold sHi
    rw [if_neg (by omega)]
    omega
  rw [hrl, hrh, hcl, hch]
  rw [Finset.sum_Ico_eq_sum_range]
  have h3 : i + 2 - (i - 1) = 3 := by omega
  rw [h3]
  refine congrArg (fun z => z - b2i (g.cell i j)) ?_
  refine Finset.sum_congr rfl fun a _ => ?_
  rw [Finset.sum_Ico_eq_sum_range]
  have h3c : j + 2 - (j - 1) = 3 := by omega
  rw [h3c]

/-!
Concrete boards used as decisive inputs and witnesses.
-/

/-- A 5×5 physical buffer (3×3 logical board) with dead border and its
last interior row fully alive — a horizontal blinker pushed against the
bottom edge of the logical grid. -/
def bottomRow : Grid := Grid.ofLists [
  [false, false, false, false, false],
  [false, false, false, false, false],
  [false, false, false, false, false],
  [false, true,  true,  true,  false],
  [false, false, false, false, false]]

/-- A fresh board state over a given grid: zeroed second buffer, empty
image cache, zeroed trackers, lock free. -/
def freshState (gpu : Bool) (g : Grid) : BoardState :=
  { board := g, newBoard := zeros g.H g.W, useGpu := gpu, image := none,
    background := BgColor.gray 0, births := 0, deaths := 0, alive := 0,
    time := 0, generation := 0, lockHeld := false }

/-- C1: the claim that the scalar and data-parallel paths of a single
`tick()` are bit-identical over the full physical buffer is FALSE on the
code: from the same grid (and zeroed second buffer) the CPU path, whose
loop runs over every physical index with a clamped slice window, births
the bottom border cell (4,2), while the GPU kernel's interior guard
leaves border cells untouched (dead).  The full buffers differ. -/
theorem cpu_gpu_tick_diverge_on_border :
    (tickPure (freshState false bottomRow)).board.cell 4 2 = true ∧
    (tickPure (freshState true bottomRow)).board.cell 4 2 = false ∧
    ¬ gridEqv (tickPure (freshState false bottomRow)).board
        (tickPure (freshState true bottomRow)).board := by
  refine ⟨rfl, rfl, ?_⟩
  decide

/-- C2: the claim that every border cell is dead immediately after
construction (with or without random seeding) is FALSE on the code:
`Board.__new__` draws the random seeding over the FULL `(h+2)×(w+2)`
physical buffer, border included, so a draw that hits a border cell
yields a freshly constructed board with a live border.  (The CPU tick of
`cpu_gpu_tick_diverge_on_border` then also shows border cells being
written by the update rule.) -/
theorem random_construction_live_border :
    ∃ g, boardNew true 3 3 (fun _ _ => true) = some g ∧
      g.cell 0 0 = true ∧ ¬ borderDead g := by
  refine ⟨_, rfl, rfl, ?_⟩
  decide

/-- C3: on every board with a dead border, one `tick()` — on either
execution path — gives each strictly interior cell its standard
Game-of-Life next state: alive iff it was alive with 2 or 3 live Moore
neighbours (the 3×3 window sum minus the cell itself), or dead with
exactly 3. -/
theorem tick_interior_follows_life_rule (st : BoardState) (i j : Nat)
    (hb : borderDead st.board)
    (hi0 : 0 < i) (hi1 : i < st.board.H - 1)
    (hj0 : 0 < j) (hj1 : j < st.board.W - 1) :
    ((tickPure st).board.cell i j = true) ↔
      ((st.board.cell i j = true ∧
          (mooreCount st.board i j = 2 ∨ mooreCount st.board i j = 3)) ∨
       (st.board.cell i j = false ∧ mooreCount st.board i j = 3)) := by
  rw [tickPure_eq]
  show (gridStep st).cell i j = true ↔ _
  unfold gridStep
  cases hg : st.useGpu with
  | true =>
      show (updateGpuKernel st.board st.newBoard).cell i j = true ↔ _
      unfold updateGpuKernel
      simp only []
      rw [if_pos ⟨hi0, hi1, hj0, hj1⟩]
      cases hc : st.board.cell i j <;> simp [hc]
  | false =>
      show (updateCPU st.board).cell i j = true ↔ _
      unfold updateCPU
      simp only []
      rw [countAlive_eq_moore st.board i j hi0 (by omega) hj0 (by omega)]
      cases hc : st.board.cell i j <;> simp [hc]

/-- Witness for C3 at a concrete board: the centre cell of the
bottom-blinker board is dead with exactly 3 live neighbours and is born
by the tick. -/
theorem tick_interior_follows_life_rule_witness :
    ((tickPure (freshState false bottomRow)).board.cell 2 2 = true) ↔
      ((bottomRow.cell 2 2 = true ∧
          (mooreCount bottomRow 2 2 = 2 ∨ mooreCount bottomRow 2 2 = 3)) ∨
       (bottomRow.cell 2 2 = false ∧ mooreCount bottomRow 2 2 = 3)) :=
  tick_interior_follows_life_rule (freshState false bottomRow) 2 2
    (by decide) (by decide) (by decide) (by decide) (by decide)

/-- C4: after any raise-free `tick()`, the `births` counter is the count
of cells dead before and alive after, the `deaths` counter the count of
cells alive before and dead after (the two set differences of the
buffers), the `alive` counter is the alive count of the updated board,
and the alive count changed by exactly `births - deaths`. -/
theorem tick_birth_death_accounting (st : BoardState) :
    (tickPure st).births = countDiff (tickPure st).board st.board ∧
    (tickPure st).deaths = countDiff st.board (tickPure st).board ∧
    (tickPure st).alive = aliveCount (tickPure st).board ∧
    aliveCount (tickPure st).board
      = aliveCount st.board + (tickPure st).births - (tickPure st).deaths := by
  rw [tickPure_eq]
  refine ⟨rfl, rfl, rfl, ?_⟩
  exact aliveCount_balance st.board (gridStep st) (gridStep_H st) (gridStep_W st)

/-- A 3×3 physical preset whose single interior cell is alive. -/
def dotPreset : Grid := Grid.ofLists [
  [false, false, false],
  [false, true,  false],
  [false, false, false]]

/-- C5: the claim that every out-of-bounds placement is rejected with an
`OutOfBoundsError` before any mutation is FALSE on the code: `paste` has
no bounds check at all.  Pasting the 3×3 dot preset at `(y, x) = (0, -1)`
on a 5×5 all-dead board lands the slice on physical row 0 — the border —
so the call returns normally having written a live cell into the border:
the target board is mutated and nothing is signalled. -/
theorem paste_out_of_bounds_mutates_border :
    ∃ g, pasteGrid (zeros 5 5) dotPreset 0 (-1) = some g ∧
      g.cell 0 1 = true ∧ ¬ gridEqv g (zeros 5 5) := by
  refine ⟨_, rfl, rfl, ?_⟩
  decide

/-- A board state whose `alive` tracker has a sink attached that raises
when pushed to. -/
def aliveSinkRaises : TrackerName → Bool
  | .alive => true
  | _ => false

/-- C6: the claim that `tick()` releases the tick lock on every exit
path is FALSE on the code: `tick` has no `try/finally`, so when the
`alive` tracker's attached sink raises on push, the exception propagates
out of `tick` with `tick_lock` still held (the trailing
`tick_lock.release()` is skipped). -/
theorem tick_lock_leak_on_sink_raise :
    ∃ s, tick aliveSinkRaises (freshState false bottomRow) = Except.error s ∧
      s.lockHeld = true :=
  ⟨_, rfl, rfl⟩

/-- C9 counterexample: the claim that construction with a nonpositive
logical dimension fails with a `ConfigurationError` is FALSE on the
code: requesting a 0×3 board succeeds and yields a degenerate 2×5
physical buffer (`Board.__new__` only pads by 2; no error type of that
name even exists in the repository). -/
theorem construction_zero_dims_succeeds :
    ∃ g, boardNew false 0 3 (fun _ _ => false) = some g ∧
      g.H = 2 ∧ g.W = 5 :=
  ⟨_, rfl, rfl, rfl⟩

/-- C9 as amended: construction performs no dimension validation — for
every requested logical size down to `-2` (where the padded physical
dimension reaches 0), including every nonpositive one, construction
succeeds and silently produces a Board with physical buffer
`(height+2) × (width+2)`; no `ConfigurationError` is signalled.  (Only
below `-2` does numpy itself reject the negative physical dimension.) -/
theorem construction_accepts_nonpositive_dims (height width : Int)
    (r : Bool) (draw : Nat → Nat → Bool)
    (h1 : -2 ≤ height) (h2 : -2 ≤ width)
    (h0 : height ≤ 0 ∨ width ≤ 0) :
    ∃ g, boardNew r height width draw = some g ∧
      g.H = (height + 2).toNat ∧ g.W = (width + 2).toNat := by
  unfold boardNew
  rw [if_neg (by omega)]
  exact ⟨_, rfl, rfl, rfl⟩

/-- Witness for the amended C9 at the concrete request 0×0: a 2×2
physical buffer is produced. -/
theorem construction_accepts_nonpositive_dims_witness :
    ∃ g, boardNew false 0 0 (fun _ _ => false) = some g ∧
      g.H = 2 ∧ g.W = 2 :=
  construction_accepts_nonpositive_dims 0 0 false (fun _ _ => false)
    (by decide) (by decide) (Or.inl (by decide))

/-- C10: with a non-empty image cache, `getImage` returns the cached
image unchanged — for either value of the transparency argument and
whatever the background colour — and leaves the state untouched; the
flag and colour are only consulted on a cache miss. -/
theorem getImage_cache_hit (st : BoardState) (img : Img) (t : Bool)
    (h : st.image = some img) :
    getImage st t = (img, st) := by
  unfold getImage
  rw [h]

/-- An opaque render of the bottom-blinker board, as left in the cache. -/
def cachedImg : Img := renderCPU bottomRow (BgColor.gray 9) false

/-- A state holding `cachedImg` in its image cache. -/
def cachedState : BoardState :=
  { freshState false bottomRow with
    background := BgColor.gray 9
    image := some cachedImg }

/-- Witness for C10: after an opaque render was cached, both a
transparent and an opaque request return the very same cached image. -/
theorem getImage_cache_hit_witness :
    getImage cachedState true = (cachedImg, cachedState) ∧
    getImage cachedState false = (cachedImg, cachedState) :=
  ⟨getImage_cache_hit cachedState cachedImg true rfl,
   getImage_cache_hit cachedState cachedImg false rfl⟩

/-!
Round-trip lemmas for the text format.
-/

theorem tokens_formatRow (r : List Bool) (h : r ≠ []) :
    tokens (formatRow r) = r.map (fun b => [bitChar b]) := by
  induction r with
  | nil => exact absurd rfl h
  | cons b rest ih =>
      cases rest with
      | nil => cases b <;> rfl
      | cons x xs =>
          have ih2 := ih (by simp)
          cases b
          · exact congrArg (List.cons ['0']) ih2
          · exact congrArg (List.cons ['1']) ih2

theorem parseRow_formatRow (r : List Bool) (h : r ≠ []) :
    parseRow (formatRow r) = r := by
  unfold parseRow
  rw [tokens_formatRow r h, List.map_map]
  have hfun : ((fun t => t == ['1']) ∘ fun b : Bool => [bitChar b])
      = id := by
    funext b
    cases b <;> rfl
  rw [hfun, List.map_id]

theorem map_parse_format (l : List (List Bool)) (hl : ∀ r ∈ l, r ≠ []) :
    (l.map formatRow).map parseRow = l := by
  induction l with
  | nil => rfl
  | cons r rs ih =>
      show parseRow (formatRow r) :: (rs.map formatRow).map parseRow = r :: rs
      rw [parseRow_formatRow r (hl r (by simp)),
        ih (fun t ht => hl t (by simp [ht]))]

theorem parsedRows_saveGrid (g : List (List Bool))
    (hne : ∀ r ∈ g, r ≠ []) :
    parsedRows (saveGrid g) = g := by
  unfold parsedRows saveGrid
  have hfilter : ((g.map formatRow).filter fun l => !(tokens l).isEmpty)
      = g.map formatRow := by
    rw [List.filter_eq_self]
    intro l hl
    obtain ⟨r, hr, rfl⟩ := List.mem_map.mp hl
    rw [tokens_formatRow r (hne r hr)]
    cases r with
    | nil => exact absurd rfl (hne [] hr)
    | cons a as => simp
  rw [hfilter]
  exact map_parse_format g hne

/-- C7: saving a boolean matrix as a plain-text 0/1 file and loading it
back reconstructs the matrix bit-identically, border rows and columns
included.  Hypotheses: the matrix is rectangular with at least one cell
per row (physical board buffers are at least 3×3) and has at least two
rows (`np.loadtxt` collapses a one-line file to a 1-D array). -/
theorem save_load_roundtrip (g : List (List Bool))
    (hne : ∀ r ∈ g, r ≠ [])
    (hrect : ∀ r ∈ g, r.length = (g.headD []).length)
    (hrows : 2 ≤ g.length) :
    loadGrid (saveGrid g) = some g := by
  have hp := parsedRows_saveGrid g hne
  have hall : ((parsedRows (saveGrid g)).all
      fun r => r.length = ((parsedRows (saveGrid g)).headD []).length)
      = true := by
    rw [hp, List.all_eq_true]
    intro r hr
    simpa using hrect r hr
  unfold loadGrid
  rw [if_pos hall, hp]

/-- Witness for C7 at a concrete 3×3 matrix. -/
def sample3 : List (List Bool) :=
  [[true, false, true], [false, true, false], [true, true, true]]

theorem save_load_roundtrip_witness :
    loadGrid (saveGrid sample3) = some sample3 :=
  save_load_roundtrip sample3 (by decide) (by decide) (by decide)

/-!
Crop-to-content lemmas.
-/

/-- Any coordinate `np.where` returns is in range and has a live cell. -/
theorem aliveList_mem (g : Grid) (p : Nat × Nat) (h : p ∈ aliveList g) :
    p.1 < g.H ∧ p.2 < g.W ∧ g.cell p.1 p.2 = true := by
  unfold aliveList at h
  rw [List.mem_flatten] at h
  obtain ⟨l, hl, hpl⟩ := h
  obtain ⟨i, hi, rfl⟩ := List.mem_map.mp hl
  obtain ⟨j, hj, hpj⟩ := List.mem_filterMap.mp hpl
  rw [List.mem_range] at hi hj
  cases hc : g.cell i j with
  | false =>
      rw [hc] at hpj
      simp at hpj
  | true =>
      rw [hc] at hpj
      simp at hpj
      rw [← hpj]
      exact ⟨hi, hj, hc⟩

/-- C8: constructing a `Preset` with crop enabled returns the region
unchanged when it is entirely dead, and the 3×3 sub-region centred on the
unique live cell — clamped to the source bounds — when exactly one cell
is alive. -/
theorem crop_empty_and_single_cell (g : Grid) (r c : Nat) :
    (aliveList g = [] → cropPreset true g = g) ∧
    (aliveList g = [(r, c)] →
      gridEqv (cropPreset true g) (centered3x3 g r c)) := by
  constructor
  · intro h
    unfold cropPreset
    rw [h]
    simp
  · intro h
    have hm := aliveList_mem g (r, c) (by rw [h]; exact List.mem_singleton_self _)
    obtain ⟨hr, hc, _⟩ := hm
    unfold cropPreset
    rw [h]
    rw [if_pos ⟨rfl, by simp⟩]
    refine ⟨?_, ?_, ?_⟩
    · show min (r + 2) g.H - (r - 1) = min (r + 1) (g.H - 1) + 1 - (r - 1)
      omega
    · show min (c + 2) g.W - (c - 1) = min (c + 1) (g.W - 1) + 1 - (c - 1)
      omega
    · intro i _ j _
      rfl

/-- A 4×4 region with a single live cell at (2, 2). -/
def singleRegion : Grid := Grid.ofLists [
  [false, false, false, false],
  [false, false, false, false],
  [false, false, true,  false],
  [false, false, false, false]]

/-- Witness for C8: an all-dead 3×3 region crops to itself; the
single-cell region crops to the 3×3 window around (2, 2), clamped at the
bottom-right corner. -/
theorem crop_empty_and_single_cell_witness :
    cropPreset true (zeros 3 3) = zeros 3 3 ∧
    gridEqv (cropPreset true singleRegion) (centered3x3 singleRegion 2 2) :=
  ⟨(crop_empty_and_single_cell (zeros 3 3) 0 0).1 rfl,
   (crop_empty_and_single_cell singleRegion 2 2).2 rfl⟩
